import Mathlib

/- Shallow embedding of the chat session and message-synchronization engine of
src/frontend/src/components/ChatInterface.tsx.  JavaScript dates are modelled
by an explicit parse function String → Int standing for new Date(s).getTime();
Array.prototype.sort is modelled as the stable insertion sort V8 uses for
short arrays (scanning the sorted prefix from the right, shifting while the
comparator is positive). -/

/-- Message role, the `role` field of the Message interface. -/
inductive Role where
  | user
  | assistant
  deriving DecidableEq, Repr

/-- Canonical message shape (interface Message, ChatInterface.tsx lines 11-19).
The `type` field of the source ("user" | "ai") equals `role` at every
construction site and is omitted; content is kept opaque as a string. -/
structure Message where
  id : String
  role : Role
  content : String
  timestamp : String
  imageUrl : Option String
  deriving DecidableEq, Repr

/-- JavaScript `x || fallback` on an optional string (empty string is falsy). -/
def jsOr (x : Option String) (fallback : String) : String :=
  match x with
  | some s => if s = "" then fallback else s
  | none => fallback

/-- JavaScript truthiness filter for an optional string (empty string is falsy). -/
def jsNonEmpty (x : Option String) : Option String :=
  match x with
  | some s => if s = "" then none else some s
  | none => none

/-- Comparator passed to Array.prototype.sort at ChatInterface.tsx lines
324-330 and 387-393: on equal timestamp strings, a user turn compares as
smaller (`a.role === 'user' ? -1 : 1`); otherwise the difference of the parsed
dates.  `time` stands for new Date(s).getTime(). -/
def msgCmp (time : String → Int) (a b : Message) : Int :=
  if a.timestamp = b.timestamp then
    (if a.role = Role.user then -1 else 1)
  else
    time a.timestamp - time b.timestamp

/-- One step of V8's insertion sort, acting on the reversed sorted prefix:
scan from the right (the head of the reversed list), shifting elements while
the comparator reports they are greater than the inserted element. -/
def insertFromRight {α : Type} (c : α → α → Int) (x : α) : List α → List α
  | [] => [x]
  | y :: ys => if 0 < c y x then y :: insertFromRight c x ys else x :: y :: ys

/-- Model of Array.prototype.sort with comparator `c`: a stable insertion
sort, built by folding `insertFromRight` over the input and reversing. -/
def jsSortBy {α : Type} (c : α → α → Int) (l : List α) : List α :=
  (l.foldl (fun acc x => insertFromRight c x acc) []).reverse

/-- Sorting of the message list as performed at lines 317-331 and 384-394. -/
def sortMessages (time : String → Int) (l : List Message) : List Message :=
  jsSortBy (msgCmp time) l

/-- Numeric value of a list of ASCII digits. -/
def digitsVal (cs : List Char) : Nat :=
  cs.foldl (fun n c => n * 10 + (c.toNat - 48)) 0

/-- Days from the Unix epoch of a civil date (standard era-based algorithm). -/
def daysFromCivil (y m d : Nat) : Int :=
  let yAdj := if m ≤ 2 then y - 1 else y
  let era := yAdj / 400
  let yoe := yAdj % 400
  let mp := (m + 9) % 12
  let doy := (153 * mp + 2) / 5 + d - 1
  let doe := yoe * 365 + yoe / 4 - yoe / 100 + doy
  ((era * 146097 + doe : Nat) : Int) - 719468

/-- Milliseconds since the Unix epoch of a UTC ISO-8601 string
"YYYY-MM-DDTHH:MM:SS[.mmm]Z", exactly as JavaScript's new Date(s).getTime()
computes it on such strings.  Serves as the concrete `time` instance in
witnesses and counterexamples. -/
def isoToMillis (s : String) : Int :=
  let cs := s.toList
  let ms : Nat :=
    match cs.drop 19 with
    | '.' :: rest => digitsVal (rest.take 3)
    | _ => 0
  daysFromCivil (digitsVal (cs.take 4)) (digitsVal ((cs.drop 5).take 2))
      (digitsVal ((cs.drop 8).take 2)) * 86400000 +
    ((digitsVal ((cs.drop 11).take 2) * 3600 + digitsVal ((cs.drop 14).take 2) * 60 +
      digitsVal ((cs.drop 17).take 2)) * 1000 + ms : Nat)

/-- Optimistic insert of a locally originated user turn (lines 317-331):
append the new message, then re-sort with the shared comparator. -/
def insertOptimistic (time : String → Int) (l : List Message) (m : Message) : List Message :=
  sortMessages time (l ++ [m])

/-- Reconciliation of a server-confirmed assistant turn (lines 384-394):
append the new message, then re-sort with the shared comparator. -/
def reconcileTurn (time : String → Int) (l : List Message) (m : Message) : List Message :=
  sortMessages time (l ++ [m])

/-- One timeline mutation: an optimistic insert (always role user, message
built at lines 308-314) or a reconciliation (always role assistant, message
built at lines 375-381). -/
inductive ChatOp where
  | optimistic (id content ts : String) (imageUrl : Option String)
  | reconcile (id content ts : String)
  deriving DecidableEq, Repr

/-- Message carried by a timeline mutation. -/
def opMessage : ChatOp → Message
  | .optimistic id c ts img => ⟨id, Role.user, c, ts, img⟩
  | .reconcile id c ts => ⟨id, Role.assistant, c, ts, none⟩

/-- Apply one timeline mutation to the current message list. -/
def applyOp (time : String → Int) (l : List Message) (op : ChatOp) : List Message :=
  match op with
  | .optimistic id c ts img => insertOptimistic time l ⟨id, Role.user, c, ts, img⟩
  | .reconcile id c ts => reconcileTurn time l ⟨id, Role.assistant, c, ts, none⟩

/-- Run a sequence of timeline mutations starting from the empty timeline. -/
def runOps (time : String → Int) (ops : List ChatOp) : List Message :=
  ops.foldl (applyOp time) []

/-- ASCII whitespace for the purposes of String.prototype.trim. -/
def isJsSpace (c : Char) : Bool :=
  c = ' ' || c = '\t' || c = '\n' || c = '\r'

/-- Model of JavaScript String.prototype.trim. -/
def jsTrim (s : String) : String :=
  ⟨((s.toList.dropWhile isJsSpace).reverse.dropWhile isJsSpace).reverse⟩

/-- Prefix test on character lists (the needle is the first argument). -/
def hasPrefixL : List Char → List Char → Bool
  | [], _ => true
  | _ :: _, [] => false
  | n :: ns, h :: hs => n == h && hasPrefixL ns hs

/-- Substring test on character lists (the needle is the first argument). -/
def hasSubstrL (needle : List Char) : List Char → Bool
  | [] => needle.isEmpty
  | h :: t => hasPrefixL needle (h :: t) || hasSubstrL needle t

/-- Model of JavaScript String.prototype.includes. -/
def jsIncludes (s sub : String) : Bool :=
  hasSubstrL sub.toList s.toList

/-- Model of JavaScript String.prototype.startsWith. -/
def jsStartsWith (s start : String) : Bool :=
  hasPrefixL start.toList s.toList

/-- JavaScript String.prototype.split at a separator character. -/
def splitChars (sep : Char) : List Char → List (List Char)
  | [] => [[]]
  | c :: rest =>
      let r := splitChars sep rest
      if c = sep then [] :: r
      else
        match r with
        | h :: t => (c :: h) :: t
        | [] => [[c]]

/-- Model of JavaScript String.prototype.split on strings. -/
def jsSplit (s : String) (sep : Char) : List String :=
  (splitChars sep s.toList).map (fun cs => ⟨cs⟩)

/-- JavaScript falsiness of a nullable string (null and "" are falsy). -/
def jsFalsy (x : Option String) : Bool :=
  match x with
  | none => true
  | some s => s = ""

/-- Pending attachment data (imageData state, line 27: { base64, type }). -/
structure ImageData where
  base64 : String
  type : String
  deriving DecidableEq, Repr

/-- Component state of ChatInterface (the useState hooks), plus the
localStorage mirror of the current thread id kept in sync by the effect at
lines 44-50 (persistedThreadId models the stored value). -/
structure ChatState where
  messages : List Message
  inputMessage : String
  imageData : Option ImageData
  imagePreview : Option String
  isLoading : Bool
  currentThreadId : Option String
  persistedThreadId : Option String
  deriving DecidableEq, Repr

/-- Setting currentThreadId; the effect at lines 44-50 immediately writes the
new value through to localStorage (or removes the key when null). -/
def setThreadId (st : ChatState) (v : Option String) : ChatState :=
  { st with currentThreadId := v, persistedThreadId := v }

/-- Style preset mapping (lines 179-184) combined with the `|| 'confident'`
fallback used at lines 154 and 348. -/
def styleMap (style : String) : String :=
  if style = "Confident" then "confident"
  else if style = "Flirty" then "flirty"
  else if style = "Funny" then "funny"
  else if style = "Chill" then "smooth"
  else "confident"

/-- Request body for POST /chat/send (lines 346-354); the image fields are
spread into the payload only when imageData.base64 is truthy. -/
structure SendPayload where
  message : String
  style : String
  threadId : String
  imageBase64 : Option String
  imageType : Option String
  deriving DecidableEq, Repr

/-- Construction of the send payload (lines 346-354). -/
def buildPayload (input style threadId : String) (img : Option ImageData) : SendPayload :=
  { message := input
    style := styleMap style
    threadId := threadId
    imageBase64 :=
      match img with
      | some d => if d.base64 = "" then none else some d.base64
      | none => none
    imageType :=
      match img with
      | some d => if d.base64 = "" then none else some d.type
      | none => none }

/-- Wire form of data.response from POST /chat/send. -/
structure AIResponse where
  id : Option String
  content : String
  timestamp : Option String
  deriving DecidableEq, Repr

/-- Wire form of the POST /chat/send response body. -/
structure SendData where
  success : Bool
  response : Option AIResponse
  message : Option String
  threadId : Option String
  deriving DecidableEq, Repr

/-- Outcome of the awaited network interaction inside handleSendMessage. -/
inductive SendOutcome where
  | noToken
  | httpError (errMessage : Option String)
  | httpOk (data : SendData)
  deriving DecidableEq, Repr

/-- The `finally` block of handleSendMessage (lines 406-411). -/
def sendFinally (st : ChatState) : ChatState :=
  { st with inputMessage := "", imageData := none, imagePreview := none, isLoading := false }

/-- Model of handleSendMessage (lines 305-412).  `time` models date parsing
for the sort comparator; `nowIso` and `nowMs` are the clock readings used for
the optimistic turn (new Date().toISOString() and Date.now()); `aiNowIso` and
`aiNowMs` are the clock readings behind the assistant turn's fallback
timestamp and id; `style` is the selected preset; `outcome` is the result of
the awaited network interaction.  Returns the new state, the error-toast
descriptions, and the request issued to POST /chat/send (none when no request
was made). -/
def handleSendMessage (time : String → Int) (nowIso : String) (nowMs : Nat)
    (aiNowIso : String) (aiNowMs : Nat) (style : String) (st : ChatState)
    (outcome : SendOutcome) : ChatState × List String × Option SendPayload :=
  if (jsTrim st.inputMessage = "" ∧ st.imageData = none) ∨ jsFalsy st.currentThreadId = true then
    (st, [], none)
  else
    let userMessage : Message :=
      { id := "msg-" ++ toString nowMs, role := Role.user, content := st.inputMessage,
        timestamp := nowIso, imageUrl := jsNonEmpty st.imagePreview }
    let st1 : ChatState :=
      { st with messages := sortMessages time (st.messages ++ [userMessage]),
                inputMessage := "", imageData := none, imagePreview := none,
                isLoading := true }
    let payload := buildPayload st.inputMessage style (st.currentThreadId.getD "") st.imageData
    match outcome with
    | SendOutcome.noToken => (sendFinally st1, ["Not authenticated"], none)
    | SendOutcome.httpError errMessage =>
        (sendFinally st1, [jsOr errMessage "Failed to send message"], some payload)
    | SendOutcome.httpOk data =>
        match data.response, data.success with
        | some r, true =>
            let aiMessage : Message :=
              { id := jsOr r.id ("msg-" ++ toString aiNowMs), role := Role.assistant,
                content := r.content, timestamp := jsOr r.timestamp aiNowIso,
                imageUrl := none }
            let st2 : ChatState :=
              { st1 with messages := sortMessages time (st1.messages ++ [aiMessage]) }
            let st3 : ChatState :=
              match data.threadId with
              | some t2 =>
                  if t2 ≠ "" ∧ some t2 ≠ st.currentThreadId then setThreadId st2 (some t2)
                  else st2
              | none => st2
            (sendFinally st3, [], some payload)
        | _, _ =>
            (sendFinally st1, [jsOr data.message "Failed to get response from server"],
              some payload)

/-- Wire form of one history message from GET /chat/threads/id/messages. -/
structure RemoteMsg where
  id : String
  role : Role
  content : String
  timestamp : Option String
  deriving DecidableEq, Repr

/-- Mapping of one wire message into the canonical shape (lines 263-271); a
missing timestamp falls back to the current clock reading. -/
def formatRemote (now : String) (m : RemoteMsg) : Message :=
  { id := m.id, role := m.role, content := m.content,
    timestamp := jsOr m.timestamp now, imageUrl := none }

/-- Temporary sort key built at line 270 from the raw wire fields; a missing
timestamp interpolates into the template literal as "undefined". -/
def remoteSortKey (m : RemoteMsg) : String :=
  (match m.timestamp with
    | some t => t
    | none => "undefined") ++ "_" ++ (if m.role = Role.user then "0" else "1")

/-- Comparator for localeCompare on sort keys, modelled as lexicographic
string comparison. -/
def strCmp (a b : String) : Int :=
  if a < b then -1 else if b < a then 1 else 0

/-- Hydration of the timeline from fetched history (lines 262-276): map each
wire message to the canonical shape paired with its sort key, sort by the
keys, then strip the keys. -/
def hydrateMessages (now : String) (msgs : List RemoteMsg) : List Message :=
  (jsSortBy (fun a b => strCmp a.1 b.1)
      (msgs.map (fun m => (remoteSortKey m, formatRemote now m)))).map Prod.snd

/-- Outcome of the history fetch inside loadMessages. -/
inductive LoadOutcome where
  | http404
  | httpOk (success : Bool) (messages : Option (List RemoteMsg))
  | httpBad
  | netError (errMessage : String)
  deriving DecidableEq, Repr

/-- The catch block of loadMessages (lines 281-295): an error whose message
mentions THREAD_NOT_FOUND or 404 degrades to the empty timeline without a
toast, anything else surfaces one error toast. -/
def loadCatch (st : ChatState) (m : String) : ChatState × List String :=
  if jsIncludes m "THREAD_NOT_FOUND" || jsIncludes m "404" then
    ({ st with messages := [] }, [])
  else (st, ["Failed to load messages"])

/-- Model of loadMessages (lines 238-299): returns the new state and the
error-toast descriptions.  Without a current thread id nothing happens; a 404
status means an empty timeline and no toast; a body without success or
without a messages array is a benign empty state; a non-ok status throws
"Failed to load messages" into the catch block; a fetch rejection carries its
own message into the catch block. -/
def loadMessages (now : String) (st : ChatState) (outcome : LoadOutcome) :
    ChatState × List String :=
  if jsFalsy st.currentThreadId = true then (st, [])
  else
      match outcome with
      | LoadOutcome.http404 => ({ st with messages := [] }, [])
      | LoadOutcome.httpOk true (some msgs) =>
          ({ st with messages := hydrateMessages now msgs }, [])
      | LoadOutcome.httpOk _ _ => ({ st with messages := [] }, [])
      | LoadOutcome.httpBad => loadCatch st "Failed to load messages"
      | LoadOutcome.netError m => loadCatch st m

/-- Outcomes the design classifies as not-found conditions. -/
def isNotFoundOutcome : LoadOutcome → Bool
  | LoadOutcome.http404 => true
  | LoadOutcome.netError m => jsIncludes m "THREAD_NOT_FOUND" || jsIncludes m "404"
  | _ => false

/-- Outcome of the DELETE /chat/threads/id call. -/
inductive DeleteOutcome where
  | noToken
  | httpFail
  | httpOk
  deriving DecidableEq, Repr

/-- Model of handleThreadDelete (lines 96-123): the Bool records whether an
error was re-thrown to the caller.  Local state is touched only after a
confirmed successful delete of the current thread, in which case the messages
are cleared and the current id unset (the effect at lines 44-50 then removes
the stored id). -/
def handleThreadDelete (st : ChatState) (threadId : String) (outcome : DeleteOutcome) :
    ChatState × Bool :=
  match outcome with
  | DeleteOutcome.noToken => (st, true)
  | DeleteOutcome.httpFail => (st, true)
  | DeleteOutcome.httpOk =>
      if st.currentThreadId = some threadId then
        ({ setThreadId st none with messages := [] }, false)
      else (st, false)

/-- Selected file as seen by handleFileChange: declared media type and size. -/
structure UploadFile where
  type : String
  size : Nat
  deriving DecidableEq, Repr

/-- Effect of handleFileChange (lines 435-475) on a selected file: one
validation toast (and nothing else), or proceeding to encode and preview. -/
inductive FileEffect where
  | toastInvalidType
  | toastTooLarge
  | encodeAndPreview (f : UploadFile)
  deriving DecidableEq, Repr

/-- Model of the validation in handleFileChange: a declared type that does
not start with "image/" is rejected whatever the size; an image larger than
20 * 1024 * 1024 bytes is rejected; otherwise the file is encoded and
previewed.  A rejected file reaches neither toBase64 nor the preview. -/
def handleFileChange (f : UploadFile) : FileEffect :=
  if jsStartsWith f.type "image/" = false then FileEffect.toastInvalidType
  else if 20 * 1024 * 1024 < f.size then FileEffect.toastTooLarge
  else FileEffect.encodeAndPreview f

/-- Model of toBase64 (lines 421-433).  The promise rejects only when the
underlying read errors; on load, the reader result is split at commas and the
part after the first comma is the payload, a result with no comma yielding ""
via the `|| ''` fallback. -/
def toBase64 (readResult : Except String String) : Except String String :=
  match readResult with
  | Except.error e => Except.error e
  | Except.ok result => Except.ok (jsOr ((jsSplit result ',')[1]?) "")

/-- Inserting into the reversed prefix permutes: the result rearranges x :: l. -/
theorem insertFromRight_perm {α : Type} (c : α → α → Int) (x : α) (l : List α) :
    List.Perm (insertFromRight c x l) (x :: l) := by
  induction l with
  | nil => simp [insertFromRight]
  | cons y ys ih =>
      by_cases h : 0 < c y x
      · simp only [insertFromRight, if_pos h]
        exact (ih.cons y).trans (List.Perm.swap x y ys)
      · simp only [insertFromRight, if_neg h]
        exact List.Perm.refl _

/-- Folding insertions over a list permutes it onto the accumulator. -/
theorem foldl_insertFromRight_perm {α : Type} (c : α → α → Int) :
    ∀ (l acc : List α),
      List.Perm (l.foldl (fun a x => insertFromRight c x a) acc) (acc ++ l) := by
  intro l
  induction l with
  | nil => intro acc; simp
  | cons x xs ih =>
      intro acc
      simp only [List.foldl_cons]
      have h1 := ih (insertFromRight c x acc)
      have h2 : List.Perm (insertFromRight c x acc ++ xs) ((x :: acc) ++ xs) :=
        (insertFromRight_perm c x acc).append_right xs
      have h3 : List.Perm ((x :: acc) ++ xs) (acc ++ x :: xs) := by
        simpa using List.perm_middle.symm
      exact (h1.trans h2).trans h3

/-- The modelled Array.prototype.sort permutes its input. -/
theorem jsSortBy_perm {α : Type} (c : α → α → Int) (l : List α) :
    List.Perm (jsSortBy c l) l := by
  have h := foldl_insertFromRight_perm c l []
  simpa [jsSortBy] using (List.reverse_perm _).trans h

/-- Sorting the message list neither adds nor drops messages. -/
theorem mem_sortMessages (time : String → Int) (l : List Message) (x : Message) :
    x ∈ sortMessages time l ↔ x ∈ l :=
  (jsSortBy_perm (msgCmp time) l).mem_iff

/-- Sorting the message list preserves counts. -/
theorem countP_sortMessages (time : String → Int) (l : List Message) (p : Message → Bool) :
    (sortMessages time l).countP p = l.countP p :=
  (jsSortBy_perm (msgCmp time) l).countP_eq p

/-- Weak guarantee the insertion sort establishes between neighbours: equal
timestamp strings without an assistant-before-user inversion, or
non-decreasing parse times. -/
def MsgLe (time : String → Int) (a b : Message) : Prop :=
  (a.timestamp = b.timestamp ∧ ¬(a.role = Role.assistant ∧ b.role = Role.user)) ∨
    (a.timestamp ≠ b.timestamp ∧ time a.timestamp ≤ time b.timestamp)

/-- Strict pairwise order that holds when parse times are injective on the
timestamps involved. -/
def MsgLt (time : String → Int) (a b : Message) : Prop :=
  (a.timestamp = b.timestamp ∧ ¬(a.role = Role.assistant ∧ b.role = Role.user)) ∨
    time a.timestamp < time b.timestamp

/-- A positive comparator value forces the weak guarantee the other way. -/
theorem msgLe_of_cmp_pos {time : String → Int} {a b : Message}
    (h : 0 < msgCmp time a b) : MsgLe time b a := by
  unfold msgCmp at h
  by_cases hts : a.timestamp = b.timestamp
  · rw [if_pos hts] at h
    by_cases hu : a.role = Role.user
    · rw [if_pos hu] at h
      exact absurd h (by decide)
    · exact Or.inl ⟨hts.symm, fun hc => hu hc.2⟩
  · rw [if_neg hts] at h
    exact Or.inr ⟨fun e => hts e.symm, by omega⟩

/-- A non-positive comparator value forces the weak guarantee directly. -/
theorem msgLe_of_cmp_nonpos {time : String → Int} {a b : Message}
    (h : msgCmp time a b ≤ 0) : MsgLe time a b := by
  unfold msgCmp at h
  by_cases hts : a.timestamp = b.timestamp
  · rw [if_pos hts] at h
    by_cases hu : a.role = Role.user
    · exact Or.inl ⟨hts, fun hc => by rw [hu] at hc; exact absurd hc.1 (by decide)⟩
    · rw [if_neg hu] at h
      exact absurd h (by decide)
  · rw [if_neg hts] at h
    exact Or.inr ⟨hts, by omega⟩

/-- One insertion step preserves the adjacency guarantee on the reversed
accumulator, and its head is the new element or the old head. -/
theorem insertFromRight_chain (time : String → Int) (x : Message) :
    ∀ l : List Message, List.Chain' (fun p q => MsgLe time q p) l →
      List.Chain' (fun p q => MsgLe time q p) (insertFromRight (msgCmp time) x l) ∧
        ((insertFromRight (msgCmp time) x l).head? = some x ∨
          (insertFromRight (msgCmp time) x l).head? = l.head?) := by
  intro l
  induction l with
  | nil => intro _; exact ⟨List.chain'_singleton x, Or.inl rfl⟩
  | cons y ys ih =>
      intro hch
      rw [List.chain'_cons'] at hch
      obtain ⟨hhead, htail⟩ := hch
      by_cases h : 0 < msgCmp time y x
      · obtain ⟨ihc, ihh⟩ := ih htail
        simp only [insertFromRight, if_pos h]
        refine ⟨List.chain'_cons'.mpr ⟨?_, ihc⟩, Or.inr rfl⟩
        intro z hz
        rcases ihh with hx | hs
        · rw [hx] at hz
          simp only [Option.mem_def, Option.some.injEq] at hz
          subst hz
          exact msgLe_of_cmp_pos h
        · rw [hs] at hz
          exact hhead z hz
      · simp only [insertFromRight, if_neg h]
        refine ⟨List.chain'_cons'.mpr ⟨?_, List.chain'_cons'.mpr ⟨hhead, htail⟩⟩, Or.inl rfl⟩
        intro z hz
        simp only [List.head?_cons, Option.mem_def, Option.some.injEq] at hz
        subst hz
        exact msgLe_of_cmp_nonpos (by omega)

/-- The fold of insertions preserves the adjacency guarantee. -/
theorem foldl_insertFromRight_chain (time : String → Int) :
    ∀ (l acc : List Message), List.Chain' (fun p q => MsgLe time q p) acc →
      List.Chain' (fun p q => MsgLe time q p)
        (l.foldl (fun a x => insertFromRight (msgCmp time) x a) acc) := by
  intro l
  induction l with
  | nil => intro acc h; exact h
  | cons x xs ih =>
      intro acc h
      simp only [List.foldl_cons]
      exact ih _ (insertFromRight_chain time x acc h).1

/-- Every sorted message list satisfies the weak adjacency guarantee. -/
theorem sortMessages_chain (time : String → Int) (l : List Message) :
    List.Chain' (MsgLe time) (sortMessages time l) := by
  have h := foldl_insertFromRight_chain time l [] List.chain'_nil
  exact List.chain'_reverse.mpr h

/-- Transfer of a chain along an implication valid on the list's members. -/
theorem chain'_imp_of_mem {α : Type} {A B : α → α → Prop} :
    ∀ {l : List α}, List.Chain' A l →
      (∀ x ∈ l, ∀ y ∈ l, A x y → B x y) → List.Chain' B l := by
  intro l
  induction l with
  | nil => intro _ _; exact List.chain'_nil
  | cons a t ih =>
      intro hch himp
      rw [List.chain'_cons'] at hch ⊢
      refine ⟨?_, ih hch.2 fun x hx y hy hA =>
        himp x (List.mem_cons_of_mem a hx) y (List.mem_cons_of_mem a hy) hA⟩
      intro z hz
      have hzmem : z ∈ a :: t := by
        cases t with
        | nil => simp at hz
        | cons b t' =>
            simp only [List.head?_cons, Option.mem_def, Option.some.injEq] at hz
            subst hz
            exact List.mem_cons_of_mem a (List.mem_cons_self b t')
      exact himp a (List.mem_cons_self a t) z hzmem (hch.1 z hz)

/-- The strict order is transitive. -/
theorem msgLt_trans (time : String → Int) :
    ∀ {a b c : Message}, MsgLt time a b → MsgLt time b c → MsgLt time a c := by
  intro a b c h1 h2
  rcases h1 with ⟨hts1, hr1⟩ | hlt1
  · rcases h2 with ⟨hts2, hr2⟩ | hlt2
    · refine Or.inl ⟨hts1.trans hts2, ?_⟩
      rintro ⟨ha, hc⟩
      cases hb : b.role with
      | user => exact hr1 ⟨ha, hb⟩
      | assistant => exact hr2 ⟨hb, hc⟩
    · right
      rw [hts1]
      exact hlt2
  · rcases h2 with ⟨hts2, hr2⟩ | hlt2
    · right
      rw [← hts2]
      exact hlt1
    · exact Or.inr (hlt1.trans hlt2)

/-- The weak guarantee upgrades to the strict order when the two parse times
can only coincide on equal timestamp strings. -/
theorem msgLt_of_msgLe (time : String → Int) {a b : Message} (h : MsgLe time a b)
    (hinj : time a.timestamp = time b.timestamp → a.timestamp = b.timestamp) :
    MsgLt time a b := by
  rcases h with h1 | ⟨hne, hle⟩
  · exact Or.inl h1
  · right
    rcases lt_or_eq_of_le hle with hlt | heq
    · exact hlt
    · exact absurd (hinj heq) hne

/-- Sorted timelines are strictly pairwise ordered, provided distinct
timestamp strings among their members parse to distinct instants. -/
theorem sortMessages_pairwise (time : String → Int) (l : List Message)
    (hinj : ∀ x ∈ l, ∀ y ∈ l,
      time x.timestamp = time y.timestamp → x.timestamp = y.timestamp) :
    List.Pairwise (MsgLt time) (sortMessages time l) := by
  have hchain := sortMessages_chain time l
  have hchain' : List.Chain' (MsgLt time) (sortMessages time l) :=
    chain'_imp_of_mem hchain fun x hx y hy hA =>
      msgLt_of_msgLe time hA
        (hinj x ((mem_sortMessages time l x).mp hx) y ((mem_sortMessages time l y).mp hy))
  haveI : IsTrans Message (MsgLt time) := ⟨fun _ _ _ hab hbc => msgLt_trans time hab hbc⟩
  exact List.chain'_iff_pairwise.mp hchain'

/-- Applying one mutation is the sorted append of its message. -/
theorem applyOp_eq (time : String → Int) (l : List Message) (op : ChatOp) :
    applyOp time l op = sortMessages time (l ++ [opMessage op]) := by
  cases op <;> rfl

/-- Every message produced by a run of mutations comes from one of them. -/
theorem mem_foldl_applyOp (time : String → Int) :
    ∀ (ops : List ChatOp) (acc : List Message) (x : Message),
      x ∈ ops.foldl (applyOp time) acc → x ∈ acc ∨ ∃ op ∈ ops, x = opMessage op := by
  intro ops
  induction ops with
  | nil => intro acc x hx; exact Or.inl hx
  | cons op ops ih =>
      intro acc x hx
      simp only [List.foldl_cons] at hx
      rcases ih _ x hx with hacc | ⟨op', hop', hx'⟩
      · rw [applyOp_eq] at hacc
        rcases List.mem_append.mp ((mem_sortMessages time _ x).mp hacc) with h1 | h2
        · exact Or.inl h1
        · simp only [List.mem_singleton] at h2
          exact Or.inr ⟨op, List.mem_cons_self op ops, h2⟩
      · exact Or.inr ⟨op', List.mem_cons_of_mem op hop', hx'⟩

/-- Claim C1 (amended): for every sequence of optimistic inserts and
reconciliations whose timestamps parse injectively (distinct timestamp
strings denote distinct instants), the resulting timeline is ordered with no
assistant turn ever preceding a user turn sharing its timestamp. -/
theorem c1_timeline_order (time : String → Int) (ops : List ChatOp)
    (hinj : ∀ op ∈ ops, ∀ op' ∈ ops,
      time (opMessage op).timestamp = time (opMessage op').timestamp →
        (opMessage op).timestamp = (opMessage op').timestamp) :
    List.Pairwise
      (fun a b => ¬(a.role = Role.assistant ∧ b.role = Role.user ∧ a.timestamp = b.timestamp))
      (runOps time ops) := by
  cases ops using List.reverseRecOn with
  | nil => simp [runOps]
  | append_singleton init op =>
      have hrun : runOps time (init ++ [op]) =
          sortMessages time (runOps time init ++ [opMessage op]) := by
        simp [runOps, List.foldl_append, applyOp_eq]
      rw [hrun]
      have hsubset : ∀ x ∈ runOps time init ++ [opMessage op],
          ∃ o ∈ init ++ [op], x = opMessage o := by
        intro x hx
        rcases List.mem_append.mp hx with h1 | h2
        · rcases mem_foldl_applyOp time init [] x h1 with h | ⟨o, ho, he⟩
          · simp at h
          · exact ⟨o, List.mem_append_left _ ho, he⟩
        · simp only [List.mem_singleton] at h2
          exact ⟨op, List.mem_append_right _ (by simp), h2⟩
      have hinj' : ∀ x ∈ runOps time init ++ [opMessage op],
          ∀ y ∈ runOps time init ++ [opMessage op],
          time x.timestamp = time y.timestamp → x.timestamp = y.timestamp := by
        intro x hx y hy
        obtain ⟨o, ho, he⟩ := hsubset x hx
        obtain ⟨o', ho', he'⟩ := hsubset y hy
        rw [he, he']
        exact hinj o ho o' ho'
      have hp := sortMessages_pairwise time (runOps time init ++ [opMessage op]) hinj'
      refine hp.imp fun hab => ?_
      rintro ⟨ha, hb, hts⟩
      rcases hab with ⟨-, hr⟩ | hlt
      · exact hr ⟨ha, hb⟩
      · rw [hts] at hlt
        exact lt_irrefl _ hlt

/-- Witness for C1 on a concrete run whose timestamps parse injectively. -/
theorem c1_timeline_order_witness :
    (∀ op ∈ [ChatOp.optimistic "u1" "hi" "2024-01-01T00:00:00.000Z" none,
        ChatOp.reconcile "m1" "hello" "2024-01-01T00:00:01.000Z"],
      ∀ op' ∈ [ChatOp.optimistic "u1" "hi" "2024-01-01T00:00:00.000Z" none,
        ChatOp.reconcile "m1" "hello" "2024-01-01T00:00:01.000Z"],
      isoToMillis (opMessage op).timestamp = isoToMillis (opMessage op').timestamp →
        (opMessage op).timestamp = (opMessage op').timestamp) ∧
    List.Pairwise
      (fun a b => ¬(a.role = Role.assistant ∧ b.role = Role.user ∧ a.timestamp = b.timestamp))
      (runOps isoToMillis [ChatOp.optimistic "u1" "hi" "2024-01-01T00:00:00.000Z" none,
        ChatOp.reconcile "m1" "hello" "2024-01-01T00:00:01.000Z"]) :=
  ⟨by decide, c1_timeline_order isoToMillis _ (by decide)⟩

/-- Counterexample to C1 as stated: with the timestamps
"2024-01-01T00:00:00Z" and "2024-01-01T00:00:00.000Z" (equal instants,
distinct strings) a run of two reconciliations and an optimistic insert
leaves an assistant turn ahead of a user turn that shares its exact
timestamp string. -/
theorem c1_counterexample :
    ¬ List.Pairwise
      (fun a b => ¬(a.role = Role.assistant ∧ b.role = Role.user ∧ a.timestamp = b.timestamp))
      (runOps isoToMillis
        [ChatOp.reconcile "a1" "r1" "2024-01-01T00:00:00.000Z",
         ChatOp.reconcile "a2" "r2" "2024-01-01T00:00:00Z",
         ChatOp.optimistic "u1" "hi" "2024-01-01T00:00:00.000Z" none]) := by
  decide

/-- Splitting a string that does not contain the separator yields one piece. -/
theorem splitChars_of_not_mem (sep : Char) :
    ∀ cs : List Char, sep ∉ cs → splitChars sep cs = [cs] := by
  intro cs
  induction cs with
  | nil => intro _; rfl
  | cons c rest ih =>
      intro h
      have hc : ¬ c = sep := fun e => h (by rw [e]; exact List.mem_cons_self _ _)
      have hr : sep ∉ rest := fun hm => h (List.mem_cons_of_mem c hm)
      simp only [splitChars, if_neg hc, ih hr]

/-- Counterexample to C2 as stated: a history hydrate that resolves after an
optimistic insert is applied unconditionally, erasing the optimistic user
turn from the visible timeline. -/
theorem c2_counterexample :
    (⟨"msg-1", Role.user, "hi", "2024-01-01T00:00:00.000Z", none⟩ : Message) ∈
      (⟨[⟨"msg-1", Role.user, "hi", "2024-01-01T00:00:00.000Z", none⟩], "", none, none,
        false, some "t2", some "t2"⟩ : ChatState).messages ∧
    (⟨"msg-1", Role.user, "hi", "2024-01-01T00:00:00.000Z", none⟩ : Message) ∉
      (loadMessages "2024-01-01T00:00:02.000Z"
        ⟨[⟨"msg-1", Role.user, "hi", "2024-01-01T00:00:00.000Z", none⟩], "", none, none,
          false, some "t2", some "t2"⟩ (LoadOutcome.httpOk true (some []))).1.messages := by
  decide

/-- Claim C2 (amended): late results are applied, not discarded.  A resolving
hydrate replaces the timeline wholesale with the fetched history, and a send
confirmation is reconciled into the current timeline whatever thread id the
response carries; the returned thread id is used only to rebind the current
id. -/
theorem c2_late_results_applied (time : String → Int)
    (now nowIso aiNowIso style : String) (nowMs aiNowMs : Nat) (st : ChatState)
    (msgs : List RemoteMsg) (r : AIResponse) (dmsg : Option String) (t2 : String)
    (hthread : jsFalsy st.currentThreadId = false)
    (hinput : ¬(jsTrim st.inputMessage = "" ∧ st.imageData = none)) :
    (loadMessages now st (LoadOutcome.httpOk true (some msgs))).1.messages =
      hydrateMessages now msgs ∧
    (⟨jsOr r.id ("msg-" ++ toString aiNowMs), Role.assistant, r.content,
        jsOr r.timestamp aiNowIso, none⟩ : Message) ∈
      (handleSendMessage time nowIso nowMs aiNowIso aiNowMs style st
        (SendOutcome.httpOk ⟨true, some r, dmsg, some t2⟩)).1.messages := by
  constructor
  · simp [loadMessages, hthread]
  · have hguard : ¬((jsTrim st.inputMessage = "" ∧ st.imageData = none) ∨
        jsFalsy st.currentThreadId = true) := by
      rintro (h | h)
      · exact hinput h
      · rw [hthread] at h; cases h
    simp only [handleSendMessage, if_neg hguard]
    by_cases hc : t2 ≠ "" ∧ some t2 ≠ st.currentThreadId
    · simp only [if_pos hc, sendFinally, setThreadId]
      exact (mem_sortMessages _ _ _).mpr (List.mem_append_right _ (List.mem_singleton.mpr rfl))
    · simp only [if_neg hc, sendFinally]
      exact (mem_sortMessages _ _ _).mpr (List.mem_append_right _ (List.mem_singleton.mpr rfl))

/-- Witness for C2 (amended) at a concrete state and response. -/
theorem c2_late_results_applied_witness :
    jsFalsy (some "t2" : Option String) = false ∧
    ¬(jsTrim "hi" = "" ∧ (none : Option ImageData) = none) ∧
    ((loadMessages "2024-01-01T00:00:02.000Z"
        ⟨[⟨"msg-1", Role.user, "hi", "2024-01-01T00:00:00.000Z", none⟩], "hi", none, none,
          false, some "t2", some "t2"⟩ (LoadOutcome.httpOk true (some []))).1.messages =
      hydrateMessages "2024-01-01T00:00:02.000Z" [] ∧
    (⟨jsOr (some "m9") ("msg-" ++ toString 7), Role.assistant, "yo",
        jsOr (some "2024-01-01T00:00:03.000Z") "2024-01-01T00:00:04.000Z", none⟩ : Message) ∈
      (handleSendMessage isoToMillis "2024-01-01T00:00:02.500Z" 5 "2024-01-01T00:00:04.000Z" 7
        "Confident"
        ⟨[⟨"msg-1", Role.user, "hi", "2024-01-01T00:00:00.000Z", none⟩], "hi", none, none,
          false, some "t2", some "t2"⟩
        (SendOutcome.httpOk ⟨true, some ⟨some "m9", "yo", some "2024-01-01T00:00:03.000Z"⟩,
          none, some "t9"⟩)).1.messages) :=
  ⟨by decide, by decide,
    c2_late_results_applied isoToMillis "2024-01-01T00:00:02.000Z" "2024-01-01T00:00:02.500Z"
      "2024-01-01T00:00:04.000Z" "Confident" 5 7
      ⟨[⟨"msg-1", Role.user, "hi", "2024-01-01T00:00:00.000Z", none⟩], "hi", none, none,
        false, some "t2", some "t2"⟩
      [] ⟨some "m9", "yo", some "2024-01-01T00:00:03.000Z"⟩ none "t9"
      (by decide) (by decide)⟩

/-- Claim C3: with non-empty input but no current thread id, handleSendMessage
returns at line 306 before any network interaction: the state is untouched,
no toast is shown, and no request is issued, so the message is silently
dropped (getOrCreateThread is never invoked). -/
theorem c3_send_dropped_without_thread (time : String → Int)
    (nowIso aiNowIso style : String) (nowMs aiNowMs : Nat) (outcome : SendOutcome) :
    handleSendMessage time nowIso nowMs aiNowIso aiNowMs style
      ⟨[], "hi", none, none, false, none, none⟩ outcome =
      (⟨[], "hi", none, none, false, none, none⟩, [], none) := by
  rfl

/-- Predicate for send outcomes in which the remote call failed: a non-ok
HTTP status, or a body without success or without a response object. -/
def isRemoteFailure : SendOutcome → Bool
  | SendOutcome.httpError _ => true
  | SendOutcome.httpOk d => !(d.success && d.response.isSome)
  | SendOutcome.noToken => false

/-- Claim C4: on every send whose remote call fails, the optimistic user turn
remains in the timeline, exactly one error is surfaced, the input text and
pending attachment are cleared, and the current and persisted thread ids are
unchanged. -/
theorem c4_failed_send (time : String → Int) (nowIso aiNowIso style : String)
    (nowMs aiNowMs : Nat) (st : ChatState) (outcome : SendOutcome)
    (hguard : ¬((jsTrim st.inputMessage = "" ∧ st.imageData = none) ∨
      jsFalsy st.currentThreadId = true))
    (hfail : isRemoteFailure outcome = true) :
    (⟨"msg-" ++ toString nowMs, Role.user, st.inputMessage, nowIso,
        jsNonEmpty st.imagePreview⟩ : Message) ∈
      (handleSendMessage time nowIso nowMs aiNowIso aiNowMs style st outcome).1.messages ∧
    (handleSendMessage time nowIso nowMs aiNowIso aiNowMs style st outcome).2.1.length = 1 ∧
    (handleSendMessage time nowIso nowMs aiNowIso aiNowMs style st outcome).1.inputMessage = "" ∧
    (handleSendMessage time nowIso nowMs aiNowIso aiNowMs style st outcome).1.imageData = none ∧
    (handleSendMessage time nowIso nowMs aiNowIso aiNowMs style st outcome).1.imagePreview
      = none ∧
    (handleSendMessage time nowIso nowMs aiNowIso aiNowMs style st outcome).1.currentThreadId
      = st.currentThreadId ∧
    (handleSendMessage time nowIso nowMs aiNowIso aiNowMs style st outcome).1.persistedThreadId
      = st.persistedThreadId := by
  have hmem : (⟨"msg-" ++ toString nowMs, Role.user, st.inputMessage, nowIso,
      jsNonEmpty st.imagePreview⟩ : Message) ∈
      sortMessages time (st.messages ++ [⟨"msg-" ++ toString nowMs, Role.user,
        st.inputMessage, nowIso, jsNonEmpty st.imagePreview⟩]) :=
    (mem_sortMessages _ _ _).mpr (List.mem_append_right _ (List.mem_singleton.mpr rfl))
  cases outcome with
  | noToken => simp [isRemoteFailure] at hfail
  | httpError em =>
      refine ⟨?_, ?_, ?_, ?_, ?_, ?_, ?_⟩ <;>
        simp only [handleSendMessage, if_neg hguard, sendFinally] <;> first | exact hmem | rfl
  | httpOk d =>
      obtain ⟨ds, dr, dm, dt⟩ := d
      cases dr with
      | none =>
          cases ds <;> (refine ⟨?_, ?_, ?_, ?_, ?_, ?_, ?_⟩ <;>
            simp only [handleSendMessage, if_neg hguard, sendFinally] <;>
              first | exact hmem | rfl)
      | some r =>
          cases ds with
          | true => simp [isRemoteFailure] at hfail
          | false =>
              refine ⟨?_, ?_, ?_, ?_, ?_, ?_, ?_⟩ <;>
                simp only [handleSendMessage, if_neg hguard, sendFinally] <;>
                  first | exact hmem | rfl

/-- Witness for C4 at a concrete state and failing remote call. -/
theorem c4_failed_send_witness :
    ¬((jsTrim "hi" = "" ∧ (none : Option ImageData) = none) ∨
      jsFalsy (some "t1" : Option String) = true) ∧
    isRemoteFailure (SendOutcome.httpError (some "boom")) = true ∧
    ((⟨"msg-" ++ toString 5, Role.user, "hi", "2024-01-01T00:00:02.500Z",
        jsNonEmpty none⟩ : Message) ∈
      (handleSendMessage isoToMillis "2024-01-01T00:00:02.500Z" 5 "2024-01-01T00:00:04.000Z" 7
        "Confident" ⟨[], "hi", none, none, false, some "t1", some "t1"⟩
        (SendOutcome.httpError (some "boom"))).1.messages ∧
    (handleSendMessage isoToMillis "2024-01-01T00:00:02.500Z" 5 "2024-01-01T00:00:04.000Z" 7
        "Confident" ⟨[], "hi", none, none, false, some "t1", some "t1"⟩
        (SendOutcome.httpError (some "boom"))).2.1.length = 1 ∧
    (handleSendMessage isoToMillis "2024-01-01T00:00:02.500Z" 5 "2024-01-01T00:00:04.000Z" 7
        "Confident" ⟨[], "hi", none, none, false, some "t1", some "t1"⟩
        (SendOutcome.httpError (some "boom"))).1.inputMessage = "" ∧
    (handleSendMessage isoToMillis "2024-01-01T00:00:02.500Z" 5 "2024-01-01T00:00:04.000Z" 7
        "Confident" ⟨[], "hi", none, none, false, some "t1", some "t1"⟩
        (SendOutcome.httpError (some "boom"))).1.imageData = none ∧
    (handleSendMessage isoToMillis "2024-01-01T00:00:02.500Z" 5 "2024-01-01T00:00:04.000Z" 7
        "Confident" ⟨[], "hi", none, none, false, some "t1", some "t1"⟩
        (SendOutcome.httpError (some "boom"))).1.imagePreview = none ∧
    (handleSendMessage isoToMillis "2024-01-01T00:00:02.500Z" 5 "2024-01-01T00:00:04.000Z" 7
        "Confident" ⟨[], "hi", none, none, false, some "t1", some "t1"⟩
        (SendOutcome.httpError (some "boom"))).1.currentThreadId = some "t1" ∧
    (handleSendMessage isoToMillis "2024-01-01T00:00:02.500Z" 5 "2024-01-01T00:00:04.000Z" 7
        "Confident" ⟨[], "hi", none, none, false, some "t1", some "t1"⟩
        (SendOutcome.httpError (some "boom"))).1.persistedThreadId = some "t1") :=
  ⟨by decide, by decide,
    c4_failed_send isoToMillis "2024-01-01T00:00:02.500Z" "2024-01-01T00:00:04.000Z"
      "Confident" 5 7 ⟨[], "hi", none, none, false, some "t1", some "t1"⟩
      (SendOutcome.httpError (some "boom")) (by decide) (by decide)⟩

/-- Claim C5 (amended): reconciliation has no id-based deduplication.  Each
reconciliation appends exactly one turn carrying the confirmed id and keeps
every existing turn unchanged, so applying the same confirmation twice leaves
two copies and a provisional id is never replaced. -/
theorem c5_reconcile_appends (time : String → Int) (l : List Message) (m : Message) :
    (reconcileTurn time l m).countP (fun x => x.id == m.id) =
      l.countP (fun x => x.id == m.id) + 1 ∧
    ∀ x ∈ l, x ∈ reconcileTurn time l m := by
  constructor
  · unfold reconcileTurn
    rw [countP_sortMessages]
    simp [List.countP_append, List.countP_cons]
  · intro x hx
    exact (mem_sortMessages _ _ _).mpr (List.mem_append_left _ hx)

/-- Witness for C5 (amended) at a concrete timeline and confirmation. -/
theorem c5_reconcile_appends_witness :
    ((reconcileTurn isoToMillis [⟨"u1", Role.user, "hi", "2024-01-01T00:00:00.000Z", none⟩]
        ⟨"m1", Role.assistant, "hello", "2024-01-01T00:00:01.000Z", none⟩).countP
      (fun x => x.id == "m1") =
        ([⟨"u1", Role.user, "hi", "2024-01-01T00:00:00.000Z", none⟩] : List Message).countP
          (fun x => x.id == "m1") + 1) ∧
    (⟨"u1", Role.user, "hi", "2024-01-01T00:00:00.000Z", none⟩ : Message) ∈
      reconcileTurn isoToMillis [⟨"u1", Role.user, "hi", "2024-01-01T00:00:00.000Z", none⟩]
        ⟨"m1", Role.assistant, "hello", "2024-01-01T00:00:01.000Z", none⟩ :=
  ⟨(c5_reconcile_appends isoToMillis
      [⟨"u1", Role.user, "hi", "2024-01-01T00:00:00.000Z", none⟩]
      ⟨"m1", Role.assistant, "hello", "2024-01-01T00:00:01.000Z", none⟩).1,
    (c5_reconcile_appends isoToMillis
      [⟨"u1", Role.user, "hi", "2024-01-01T00:00:00.000Z", none⟩]
      ⟨"m1", Role.assistant, "hello", "2024-01-01T00:00:01.000Z", none⟩).2
      _ (by decide)⟩

/-- Counterexample to C5 as stated: applying the same server confirmation
twice leaves two turns with the confirmed id, not a single copy. -/
theorem c5_counterexample :
    (reconcileTurn isoToMillis
        (reconcileTurn isoToMillis []
          ⟨"m1", Role.assistant, "hello", "2024-01-01T00:00:01.000Z", none⟩)
        ⟨"m1", Role.assistant, "hello", "2024-01-01T00:00:01.000Z", none⟩).countP
      (fun x => x.id == "m1") = 2 := by
  decide

/-- Claim C6: validation rejects every non-image declared type regardless of
size, rejects every image above the fixed 20 MiB cap, and accepts an
image-typed file under the cap; a rejected file only raises a toast, so it is
never encoded and triggers no network interaction. -/
theorem c6_attachment_validation (f : UploadFile) :
    (jsStartsWith f.type "image/" = false →
      handleFileChange f = FileEffect.toastInvalidType) ∧
    (jsStartsWith f.type "image/" = true → 20 * 1024 * 1024 < f.size →
      handleFileChange f = FileEffect.toastTooLarge) ∧
    (jsStartsWith f.type "image/" = true → f.size ≤ 20 * 1024 * 1024 →
      handleFileChange f = FileEffect.encodeAndPreview f) := by
  refine ⟨?_, ?_, ?_⟩
  · intro h
    simp [handleFileChange, h]
  · intro h hs
    simp [handleFileChange, h, hs]
  · intro h hs
    simp [handleFileChange, h, Nat.not_lt.mpr hs]

/-- Witness for C6: a text file, a 21 MiB image, and a 19 MiB image. -/
theorem c6_attachment_validation_witness :
    handleFileChange ⟨"text/plain", 5⟩ = FileEffect.toastInvalidType ∧
    handleFileChange ⟨"image/png", 21 * 1024 * 1024⟩ = FileEffect.toastTooLarge ∧
    handleFileChange ⟨"image/png", 19 * 1024 * 1024⟩ =
      FileEffect.encodeAndPreview ⟨"image/png", 19 * 1024 * 1024⟩ :=
  ⟨(c6_attachment_validation ⟨"text/plain", 5⟩).1 (by decide),
    (c6_attachment_validation ⟨"image/png", 21 * 1024 * 1024⟩).2.1 (by decide) (by decide),
    (c6_attachment_validation ⟨"image/png", 19 * 1024 * 1024⟩).2.2 (by decide) (by decide)⟩

/-- Claim C7: a 404 history response yields the empty timeline with no toast,
and any load outcome that surfaces a toast is not a not-found condition. -/
theorem c7_not_found_soft (now : String) (st : ChatState) (o : LoadOutcome)
    (h : jsFalsy st.currentThreadId = false) :
    (loadMessages now st LoadOutcome.http404).1.messages = [] ∧
    (loadMessages now st LoadOutcome.http404).2 = [] ∧
    ((loadMessages now st o).2 ≠ [] → isNotFoundOutcome o = false) := by
  refine ⟨by simp [loadMessages, h], by simp [loadMessages, h], ?_⟩
  intro htoast
  cases o with
  | http404 => simp [loadMessages, h] at htoast
  | httpOk s msgs =>
      cases s <;> cases msgs <;> simp [loadMessages, h] at htoast
  | httpBad => rfl
  | netError m =>
      by_cases hm : (jsIncludes m "THREAD_NOT_FOUND" || jsIncludes m "404") = true
      · simp [loadMessages, h, loadCatch, hm] at htoast
      · simpa [isNotFoundOutcome] using hm

/-- Witness for C7 at a concrete state and a genuine network failure. -/
theorem c7_not_found_soft_witness :
    jsFalsy (some "t1" : Option String) = false ∧
    (loadMessages "2024-01-01T00:00:00.000Z"
        ⟨[], "", none, none, false, some "t1", some "t1"⟩ LoadOutcome.http404).1.messages
      = [] ∧
    (loadMessages "2024-01-01T00:00:00.000Z"
        ⟨[], "", none, none, false, some "t1", some "t1"⟩ LoadOutcome.http404).2 = [] ∧
    isNotFoundOutcome (LoadOutcome.netError "boom") = false :=
  ⟨by decide,
    (c7_not_found_soft "2024-01-01T00:00:00.000Z"
      ⟨[], "", none, none, false, some "t1", some "t1"⟩
      (LoadOutcome.netError "boom") (by decide)).1,
    (c7_not_found_soft "2024-01-01T00:00:00.000Z"
      ⟨[], "", none, none, false, some "t1", some "t1"⟩
      (LoadOutcome.netError "boom") (by decide)).2.1,
    (c7_not_found_soft "2024-01-01T00:00:00.000Z"
      ⟨[], "", none, none, false, some "t1", some "t1"⟩
      (LoadOutcome.netError "boom") (by decide)).2.2 (by decide)⟩

/-- Claim C8: a failed remote delete is reported to the caller with the local
state untouched; the current id and timeline are cleared only on confirmed
success and only when the deleted id is the current thread. -/
theorem c8_delete_atomic (st : ChatState) (tid : String) :
    handleThreadDelete st tid DeleteOutcome.noToken = (st, true) ∧
    handleThreadDelete st tid DeleteOutcome.httpFail = (st, true) ∧
    (st.currentThreadId = some tid →
      handleThreadDelete st tid DeleteOutcome.httpOk =
        ({ st with messages := [], currentThreadId := none, persistedThreadId := none },
          false)) ∧
    (st.currentThreadId ≠ some tid →
      handleThreadDelete st tid DeleteOutcome.httpOk = (st, false)) := by
  refine ⟨rfl, rfl, ?_, ?_⟩
  · intro h
    simp [handleThreadDelete, setThreadId, h]
  · intro h
    simp [handleThreadDelete, h]

/-- Witness for C8 at a concrete state. -/
theorem c8_delete_atomic_witness :
    handleThreadDelete ⟨[], "", none, none, false, some "t1", some "t1"⟩ "t1"
      DeleteOutcome.httpFail = (⟨[], "", none, none, false, some "t1", some "t1"⟩, true) ∧
    handleThreadDelete ⟨[], "", none, none, false, some "t1", some "t1"⟩ "t1"
      DeleteOutcome.httpOk = (⟨[], "", none, none, false, none, none⟩, false) ∧
    handleThreadDelete ⟨[], "", none, none, false, some "t1", some "t1"⟩ "t2"
      DeleteOutcome.httpOk = (⟨[], "", none, none, false, some "t1", some "t1"⟩, false) :=
  ⟨(c8_delete_atomic ⟨[], "", none, none, false, some "t1", some "t1"⟩ "t1").2.1,
    (c8_delete_atomic ⟨[], "", none, none, false, some "t1", some "t1"⟩ "t1").2.2.1 rfl,
    (c8_delete_atomic ⟨[], "", none, none, false, some "t1", some "t1"⟩ "t2").2.2.2
      (by decide)⟩

/-- Claim C9: on a successful send, a returned thread id different from the
one the request was sent with rebinds the current id and writes it through to
storage; an equal returned id leaves the current and persisted ids
unchanged. -/
theorem c9_thread_rebinding (time : String → Int) (nowIso aiNowIso style : String)
    (nowMs aiNowMs : Nat) (st : ChatState) (r : AIResponse) (dmsg : Option String)
    (t2 : String)
    (hguard : ¬((jsTrim st.inputMessage = "" ∧ st.imageData = none) ∨
      jsFalsy st.currentThreadId = true))
    (ht2 : t2 ≠ "") :
    (some t2 ≠ st.currentThreadId →
      (handleSendMessage time nowIso nowMs aiNowIso aiNowMs style st
          (SendOutcome.httpOk ⟨true, some r, dmsg, some t2⟩)).1.currentThreadId = some t2 ∧
      (handleSendMessage time nowIso nowMs aiNowIso aiNowMs style st
          (SendOutcome.httpOk ⟨true, some r, dmsg, some t2⟩)).1.persistedThreadId
        = some t2) ∧
    (some t2 = st.currentThreadId →
      (handleSendMessage time nowIso nowMs aiNowIso aiNowMs style st
          (SendOutcome.httpOk ⟨true, some r, dmsg, some t2⟩)).1.currentThreadId
        = st.currentThreadId ∧
      (handleSendMessage time nowIso nowMs aiNowIso aiNowMs style st
          (SendOutcome.httpOk ⟨true, some r, dmsg, some t2⟩)).1.persistedThreadId
        = st.persistedThreadId) := by
  constructor
  · intro hne
    simp [handleSendMessage, if_neg hguard, ht2, hne, sendFinally, setThreadId]
  · intro heq
    simp [handleSendMessage, if_neg hguard, heq, sendFinally, setThreadId]

/-- Witness for C9: one send whose response carries a new thread id, one
whose response carries the id the request was sent with. -/
theorem c9_thread_rebinding_witness :
    ¬((jsTrim "hi" = "" ∧ (none : Option ImageData) = none) ∨
      jsFalsy (some "t0" : Option String) = true) ∧
    ("t1" : String) ≠ "" ∧
    ((handleSendMessage isoToMillis "2024-01-01T00:00:02.500Z" 5 "2024-01-01T00:00:04.000Z" 7
        "Confident" ⟨[], "hi", none, none, false, some "t0", some "t0"⟩
        (SendOutcome.httpOk ⟨true,
          some ⟨some "m1", "hello!", some "2024-01-01T00:00:03.000Z"⟩, none,
          some "t1"⟩)).1.currentThreadId = some "t1" ∧
      (handleSendMessage isoToMillis "2024-01-01T00:00:02.500Z" 5 "2024-01-01T00:00:04.000Z" 7
        "Confident" ⟨[], "hi", none, none, false, some "t0", some "t0"⟩
        (SendOutcome.httpOk ⟨true,
          some ⟨some "m1", "hello!", some "2024-01-01T00:00:03.000Z"⟩, none,
          some "t1"⟩)).1.persistedThreadId = some "t1") ∧
    ((handleSendMessage isoToMillis "2024-01-01T00:00:02.500Z" 5 "2024-01-01T00:00:04.000Z" 7
        "Confident" ⟨[], "hi", none, none, false, some "t0", some "t0"⟩
        (SendOutcome.httpOk ⟨true,
          some ⟨some "m1", "hello!", some "2024-01-01T00:00:03.000Z"⟩, none,
          some "t0"⟩)).1.currentThreadId = some "t0" ∧
      (handleSendMessage isoToMillis "2024-01-01T00:00:02.500Z" 5 "2024-01-01T00:00:04.000Z" 7
        "Confident" ⟨[], "hi", none, none, false, some "t0", some "t0"⟩
        (SendOutcome.httpOk ⟨true,
          some ⟨some "m1", "hello!", some "2024-01-01T00:00:03.000Z"⟩, none,
          some "t0"⟩)).1.persistedThreadId = some "t0") :=
  ⟨by decide, by decide,
    (c9_thread_rebinding isoToMillis "2024-01-01T00:00:02.500Z" "2024-01-01T00:00:04.000Z"
      "Confident" 5 7 ⟨[], "hi", none, none, false, some "t0", some "t0"⟩
      ⟨some "m1", "hello!", some "2024-01-01T00:00:03.000Z"⟩ none "t1"
      (by decide) (by decide)).1 (by decide),
    (c9_thread_rebinding isoToMillis "2024-01-01T00:00:02.500Z" "2024-01-01T00:00:04.000Z"
      "Confident" 5 7 ⟨[], "hi", none, none, false, some "t0", some "t0"⟩
      ⟨some "m1", "hello!", some "2024-01-01T00:00:03.000Z"⟩ none "t0"
      (by decide) (by decide)).2 rfl⟩

/-- Claim C10 (amended): a successfully read reader result with no comma
resolves to the empty base64 payload rather than rejecting, and a send with a
pending empty base64 raises no error but omits the image fields from the
payload entirely (the empty string being falsy) instead of carrying "". -/
theorem c10_no_comma_resolves_empty (r input style tid ty : String)
    (h : ',' ∉ r.toList) :
    toBase64 (Except.ok r) = Except.ok "" ∧
    (buildPayload input style tid (some ⟨"", ty⟩)).imageBase64 = none ∧
    (buildPayload input style tid (some ⟨"", ty⟩)).imageType = none := by
  refine ⟨?_, rfl, rfl⟩
  have h' : ',' ∉ r.data := h
  simp [toBase64, jsSplit, splitChars_of_not_mem ',' r.data h', jsOr]

/-- Witness for C10 (amended) at a concrete prefix-less reader result. -/
theorem c10_no_comma_resolves_empty_witness :
    (',' ∉ "ABC".toList) ∧
    (toBase64 (Except.ok "ABC") = Except.ok "" ∧
      (buildPayload "hi" "Confident" "t1" (some ⟨"", "image/png"⟩)).imageBase64 = none ∧
      (buildPayload "hi" "Confident" "t1" (some ⟨"", "image/png"⟩)).imageType = none) :=
  ⟨by decide, c10_no_comma_resolves_empty "ABC" "hi" "Confident" "t1" "image/png" (by decide)⟩

/-- Counterexample to C10 as stated: the payload of a send whose pending
attachment holds base64 "" does not carry imageBase64 at all, because the
spread at lines 350-353 drops the fields on a falsy base64 string. -/
theorem c10_counterexample :
    toBase64 (Except.ok "ABC") = Except.ok "" ∧
    (buildPayload "hi" "Confident" "t1" (some ⟨"", "image/png"⟩)).imageBase64 ≠ some "" := by
  exact ⟨rfl, by decide⟩
